import Mathlib

/-!
Shallow embedding of the chess rules engine (`chess-logic` module and the
SAN generator of the board component) together with proofs about its
move generation, move execution, attack detection and notation logic.

Boards are modelled as total functions from coordinates to optional pieces;
the TypeScript `cloneBoard` deep copy is the identity in this pure model.
All integer coordinates are `Int`, matching the unguarded arithmetic of the
source (candidate squares may fall outside the board and are screened by
`isValidPosition`, exactly as in the source).
-/

namespace Chess

inductive PieceType where
  | pawn | rook | knight | bishop | queen | king
  deriving DecidableEq, Repr

inductive Color where
  | white | black
  deriving DecidableEq, Repr

/-- `color === "white" ? "black" : "white"`. -/
def opponentColor (c : Color) : Color :=
  if c = Color.white then Color.black else Color.white

structure ChessPiece where
  type : PieceType
  color : Color
  hasMoved : Bool
  deriving DecidableEq, Repr

structure Position where
  row : Int
  col : Int
  deriving DecidableEq, Repr

/-- An 8x8 grid cell holds zero-or-one piece; modelled as a total function. -/
def Board := Position → Option ChessPiece

structure GameState where
  whiteCanCastleKingside : Bool
  whiteCanCastleQueenside : Bool
  blackCanCastleKingside : Bool
  blackCanCastleQueenside : Bool
  enPassantTarget : Option Position
  halfMoveClock : Nat
  fullMoveNumber : Nat
  deriving DecidableEq, Repr

structure MoveResult where
  newBoard : Board
  newGameState : GameState
  capturedPiece : Option ChessPiece

/-- `cloneBoard`: deep copy; the identity on the pure board value. -/
def cloneBoard (board : Board) : Board := fun pos => board pos

/-- `cleanBoard`: clone to ensure immutability; identity on the value. -/
def cleanBoard (board : Board) : Board := fun pos => board pos

/-- `isValidPosition`: the coordinate lies in the 8x8 grid. -/
def isValidPosition (position : Position) : Bool :=
  decide (0 ≤ position.row ∧ position.row < 8 ∧ 0 ≤ position.col ∧ position.col < 8)

/-- Functional update of one board cell (a TypeScript array cell assignment). -/
def boardSet (b : Board) (p : Position) (v : Option ChessPiece) : Board :=
  fun q => if q = p then v else b q

/-- `initialBoard`: the standard starting position. -/
def initialBoard : Board := fun pos =>
  if pos.row = 1 then some ⟨PieceType.pawn, Color.black, false⟩
  else if pos.row = 6 then some ⟨PieceType.pawn, Color.white, false⟩
  else if pos.row = 0 ∨ pos.row = 7 then
    let c := if pos.row = 0 then Color.black else Color.white
    if pos.col = 0 ∨ pos.col = 7 then some ⟨PieceType.rook, c, false⟩
    else if pos.col = 1 ∨ pos.col = 6 then some ⟨PieceType.knight, c, false⟩
    else if pos.col = 2 ∨ pos.col = 5 then some ⟨PieceType.bishop, c, false⟩
    else if pos.col = 3 then some ⟨PieceType.queen, c, false⟩
    else if pos.col = 4 then some ⟨PieceType.king, c, false⟩
    else none
  else none

/-! ## Attack detector (`isPositionUnderAttack`) -/

/-- The two pawn squares probed by the attack detector: `position.row + 1`
for a white defender, `position.row - 1` for a black defender. -/
def pawnDirections (position : Position) (color : Color) : List Position :=
  if color = Color.white then
    [⟨position.row + 1, position.col - 1⟩, ⟨position.row + 1, position.col + 1⟩]
  else
    [⟨position.row - 1, position.col - 1⟩, ⟨position.row - 1, position.col + 1⟩]

/-- The inner branch of the pawn scan: when an opposing pawn is found, the
source tests the en-passant target but returns `true` in both branches. -/
def pawnAttackEPBranch (gs : GameState) (dir : Position) : Bool :=
  match gs.enPassantTarget with
  | some ep => if dir.row = ep.row ∧ dir.col = ep.col then true else true
  | none => true

/-- Pawn part of `isPositionUnderAttack`, including the vestigial
en-passant branch of the source. -/
def pawnAttackScan (board : Board) (position : Position) (color : Color)
    (gs : GameState) : Bool :=
  (pawnDirections position color).any fun dir =>
    if isValidPosition dir then
      match board dir with
      | some piece =>
        if piece.type = PieceType.pawn ∧ piece.color = opponentColor color then
          pawnAttackEPBranch gs dir
        else false
      | none => false
    else false

/-- Pawn part of the attack detector with the en-passant comparison removed
(plain diagonal pawn-attack detection over the same probed squares). -/
def pawnAttackScanPlain (board : Board) (position : Position) (color : Color) : Bool :=
  (pawnDirections position color).any fun dir =>
    if isValidPosition dir then
      match board dir with
      | some piece =>
        if piece.type = PieceType.pawn ∧ piece.color = opponentColor color then
          true
        else false
      | none => false
    else false

/-- The eight knight offsets from a square. -/
def knightOffsets (p : Position) : List Position :=
  [⟨p.row - 2, p.col - 1⟩, ⟨p.row - 2, p.col + 1⟩,
   ⟨p.row - 1, p.col - 2⟩, ⟨p.row - 1, p.col + 2⟩,
   ⟨p.row + 1, p.col - 2⟩, ⟨p.row + 1, p.col + 2⟩,
   ⟨p.row + 2, p.col - 1⟩, ⟨p.row + 2, p.col + 1⟩]

/-- The eight adjacent offsets from a square. -/
def kingOffsets (p : Position) : List Position :=
  [⟨p.row - 1, p.col - 1⟩, ⟨p.row - 1, p.col⟩, ⟨p.row - 1, p.col + 1⟩,
   ⟨p.row, p.col - 1⟩, ⟨p.row, p.col + 1⟩,
   ⟨p.row + 1, p.col - 1⟩, ⟨p.row + 1, p.col⟩, ⟨p.row + 1, p.col + 1⟩]

/-- Knight part of `isPositionUnderAttack`. -/
def knightAttackScan (board : Board) (position : Position) (color : Color) : Bool :=
  (knightOffsets position).any fun move =>
    if isValidPosition move then
      match board move with
      | some piece =>
        if piece.type = PieceType.knight ∧ piece.color = opponentColor color then
          true
        else false
      | none => false
    else false

/-- King part of `isPositionUnderAttack`. -/
def kingAttackScan (board : Board) (position : Position) (color : Color) : Bool :=
  (kingOffsets position).any fun move =>
    if isValidPosition move then
      match board move with
      | some piece =>
        if piece.type = PieceType.king ∧ piece.color = opponentColor color then
          true
        else false
      | none => false
    else false

/-- The eight ray directions probed for sliding attackers. -/
def allDirections : List Position :=
  [⟨-1, 0⟩, ⟨1, 0⟩, ⟨0, -1⟩, ⟨0, 1⟩, ⟨-1, -1⟩, ⟨-1, 1⟩, ⟨1, -1⟩, ⟨1, 1⟩]

/-- One ray walk of the sliding-attack scan: advance one square at a time
while the position is valid; the first occupied square decides the ray.
Fuel 8 suffices: a ray inside the 8x8 grid has at most 8 cells. -/
def slideAttackRay (board : Board) (color : Color) (dir : Position) :
    Nat → Position → Bool
  | 0, _ => false
  | Nat.succ fuel, cur =>
    if isValidPosition cur then
      match board cur with
      | some piece =>
        if piece.color = opponentColor color then
          if ((dir.row ≠ 0 ∧ dir.col ≠ 0) ∧
                (piece.type = PieceType.bishop ∨ piece.type = PieceType.queen)) ∨
             ((dir.row = 0 ∨ dir.col = 0) ∧
                (piece.type = PieceType.rook ∨ piece.type = PieceType.queen)) then
            true
          else false
        else false
      | none =>
        slideAttackRay board color dir fuel ⟨cur.row + dir.row, cur.col + dir.col⟩
    else false

/-- Sliding part of `isPositionUnderAttack`. -/
def slideAttackScan (board : Board) (position : Position) (color : Color) : Bool :=
  allDirections.any fun dir =>
    slideAttackRay board color dir 8 ⟨position.row + dir.row, position.col + dir.col⟩

/-- `isPositionUnderAttack(board, position, color, gameState)`: whether any
opposing piece could capture on `position`, scanning pawns, knights, kings
and sliding pieces in the source's order. -/
def isPositionUnderAttack (board : Board) (position : Position) (color : Color)
    (gs : GameState) : Bool :=
  pawnAttackScan board position color gs ||
  knightAttackScan board position color ||
  kingAttackScan board position color ||
  slideAttackScan board position color

/-- Variant of `isPositionUnderAttack` with the en-passant comparison removed
from the pawn branch; it takes no game state. -/
def isPositionUnderAttackNoEP (board : Board) (position : Position) (color : Color) : Bool :=
  pawnAttackScanPlain board position color ||
  knightAttackScan board position color ||
  kingAttackScan board position color ||
  slideAttackScan board position color

/-! ## King lookup and check -/

/-- The 64 board squares in the row-major order of the source's loops. -/
def boardPositions : List Position :=
  (List.range 8).flatMap fun r =>
    (List.range 8).map fun c => ⟨Int.ofNat r, Int.ofNat c⟩

/-- `findKing`: first square, in row-major scan order, holding a king of the
given color. -/
def findKing (board : Board) (color : Color) : Option Position :=
  boardPositions.find? fun pos =>
    match board pos with
    | some piece => decide (piece.type = PieceType.king ∧ piece.color = color)
    | none => false

/-- `isKingInCheck`: the king exists and its square is under attack. -/
def isKingInCheck (board : Board) (color : Color) (gs : GameState) : Bool :=
  match findKing board color with
  | none => false
  | some kingPosition => isPositionUnderAttack board kingPosition color gs

/-! ## Pseudo-legal move generators -/

/-- The forward direction of a pawn (`direction` in `getPawnMoves`). -/
def pawnDirection (c : Color) : Int :=
  if c = Color.white then -1 else 1

/-- The starting row of a pawn (`startingRow` in `getPawnMoves`). -/
def pawnStartingRow (c : Color) : Int :=
  if c = Color.white then 6 else 1

/-- `getPawnMoves`: single advance, double advance from the starting row,
diagonal captures, and the en-passant diagonal onto the target square. -/
def getPawnMoves (board : Board) (position : Position) (gs : GameState) :
    List Position :=
  match board position with
  | none => []
  | some piece =>
    if piece.type = PieceType.pawn then
      let direction := pawnDirection piece.color
      let oneForward : Position := ⟨position.row + direction, position.col⟩
      let forwardMoves :=
        if isValidPosition oneForward ∧ board oneForward = none then
          oneForward ::
            (if position.row = pawnStartingRow piece.color then
              let twoForward : Position := ⟨position.row + 2 * direction, position.col⟩
              if board twoForward = none then [twoForward] else []
            else [])
        else []
      let capturePositions : List Position :=
        [⟨position.row + direction, position.col - 1⟩,
         ⟨position.row + direction, position.col + 1⟩]
      let captureMoves := capturePositions.flatMap fun capturePos =>
        if isValidPosition capturePos then
          match board capturePos with
          | some targetPiece =>
            if targetPiece.color ≠ piece.color then [capturePos] else []
          | none =>
            match gs.enPassantTarget with
            | some ep =>
              if capturePos.row = ep.row ∧ capturePos.col = ep.col then
                [capturePos]
              else []
            | none => []
        else []
      forwardMoves ++ captureMoves
    else []

/-- One ray walk of a sliding move generator: empty squares are collected,
an enemy square is collected and ends the ray, a friendly square ends it. -/
def slideRay (board : Board) (pieceColor : Color) (dir : Position) :
    Nat → Position → List Position
  | 0, _ => []
  | Nat.succ fuel, cur =>
    if isValidPosition cur then
      match board cur with
      | none => cur :: slideRay board pieceColor dir fuel ⟨cur.row + dir.row, cur.col + dir.col⟩
      | some targetPiece =>
        if targetPiece.color ≠ pieceColor then [cur] else []
    else []

/-- The four orthogonal ray directions. -/
def rookDirections : List Position := [⟨-1, 0⟩, ⟨1, 0⟩, ⟨0, -1⟩, ⟨0, 1⟩]

/-- The four diagonal ray directions. -/
def bishopDirections : List Position := [⟨-1, -1⟩, ⟨-1, 1⟩, ⟨1, -1⟩, ⟨1, 1⟩]

/-- `getRookMoves`: slide along the four orthogonal rays. -/
def getRookMoves (board : Board) (position : Position) : List Position :=
  match board position with
  | none => []
  | some piece =>
    rookDirections.flatMap fun dir =>
      slideRay board piece.color dir 8 ⟨position.row + dir.row, position.col + dir.col⟩

/-- `getBishopMoves`: slide along the four diagonal rays. -/
def getBishopMoves (board : Board) (position : Position) : List Position :=
  match board position with
  | none => []
  | some piece =>
    bishopDirections.flatMap fun dir =>
      slideRay board piece.color dir 8 ⟨position.row + dir.row, position.col + dir.col⟩

/-- `getQueenMoves`: rook moves followed by bishop moves. -/
def getQueenMoves (board : Board) (position : Position) : List Position :=
  getRookMoves board position ++ getBishopMoves board position

/-- `getKnightMoves`: the eight knight offsets onto empty or enemy squares. -/
def getKnightMoves (board : Board) (position : Position) : List Position :=
  match board position with
  | none => []
  | some piece =>
    (knightOffsets position).filter fun move =>
      isValidPosition move &&
        match board move with
        | none => true
        | some targetPiece => decide (targetPiece.color ≠ piece.color)

/-- Kingside castling candidate of `getKingMoves`: requires the rights flag,
an unmoved same-color rook on column 7, a clear path, and that neither the
king's square nor the square it passes through is attacked. -/
def kingsideCastleMoves (board : Board) (position : Position)
    (piece : ChessPiece) (gs : GameState) : List Position :=
  if (piece.color = Color.white ∧ gs.whiteCanCastleKingside = true) ∨
     (piece.color = Color.black ∧ gs.blackCanCastleKingside = true) then
    match board ⟨position.row, 7⟩ with
    | some rook =>
      if rook.type = PieceType.rook ∧ rook.color = piece.color ∧ rook.hasMoved = false then
        let path : List Position :=
          [⟨position.row, position.col + 1⟩, ⟨position.row, position.col + 2⟩]
        let pathClear := path.all fun pos => board pos = none
        let kingNotInCheck :=
          !isKingInCheck board piece.color gs &&
          !isPositionUnderAttack board ⟨position.row, position.col + 1⟩ piece.color gs
        if pathClear && kingNotInCheck then [⟨position.row, position.col + 2⟩] else []
      else []
    | none => []
  else []

/-- Queenside castling candidate of `getKingMoves`. -/
def queensideCastleMoves (board : Board) (position : Position)
    (piece : ChessPiece) (gs : GameState) : List Position :=
  if (piece.color = Color.white ∧ gs.whiteCanCastleQueenside = true) ∨
     (piece.color = Color.black ∧ gs.blackCanCastleQueenside = true) then
    match board ⟨position.row, 0⟩ with
    | some rook =>
      if rook.type = PieceType.rook ∧ rook.color = piece.color ∧ rook.hasMoved = false then
        let path : List Position :=
          [⟨position.row, position.col - 1⟩, ⟨position.row, position.col - 2⟩,
           ⟨position.row, position.col - 3⟩]
        let pathClear := path.all fun pos => board pos = none
        let kingNotInCheck :=
          !isKingInCheck board piece.color gs &&
          !isPositionUnderAttack board ⟨position.row, position.col - 1⟩ piece.color gs
        if pathClear && kingNotInCheck then [⟨position.row, position.col - 2⟩] else []
      else []
    | none => []
  else []

/-- `getKingMoves`: the eight adjacent squares plus castling candidates. -/
def getKingMoves (board : Board) (position : Position) (gs : GameState) :
    List Position :=
  match board position with
  | none => []
  | some piece =>
    if piece.type = PieceType.king then
      let basicMoves := (kingOffsets position).filter fun move =>
        isValidPosition move &&
          match board move with
          | none => true
          | some targetPiece => decide (targetPiece.color ≠ piece.color)
      let castleMoves :=
        if piece.hasMoved = false then
          kingsideCastleMoves board position piece gs ++
          queensideCastleMoves board position piece gs
        else []
      basicMoves ++ castleMoves
    else []

/-! ## Move executor (`movePiece`) -/

/-- Pawn block of `movePiece`, board part: landing on the current
en-passant target removes the pawn directly behind the destination. -/
def epCaptureRemoval (board : Board) (piece : ChessPiece) (t : Position)
    (gs : GameState) : Board :=
  match gs.enPassantTarget with
  | some ep =>
    if t.row = ep.row ∧ t.col = ep.col then
      let captureRow : Int := if piece.color = Color.white then t.row + 1 else t.row - 1
      boardSet board ⟨captureRow, t.col⟩ none
    else board
  | none => board

/-- Pawn block of `movePiece`, state part: a move of two rows records the
skipped square as the new en-passant target, any other pawn move clears it. -/
def pawnEPTargetUpdate (piece : ChessPiece) (f t : Position) (gs : GameState) :
    GameState :=
  if (f.row - t.row).natAbs = 2 then
    let enPassantRow : Int := if piece.color = Color.white then f.row - 1 else f.row + 1
    { gs with enPassantTarget := some ⟨enPassantRow, f.col⟩ }
  else { gs with enPassantTarget := none }

/-- Pawn block of `movePiece`, promotion part: a pawn on the far rank takes
the requested kind, defaulting to queen. -/
def promotedType (piece : ChessPiece) (t : Position)
    (promotionPiece : Option PieceType) : PieceType :=
  if (piece.color = Color.white ∧ t.row = 0) ∨ (piece.color = Color.black ∧ t.row = 7) then
    promotionPiece.getD PieceType.queen
  else piece.type

/-- King block of `movePiece`, state part: both castling rights of the
moving color are cleared unconditionally. -/
def kingRightsUpdate (color : Color) (gs : GameState) : GameState :=
  if color = Color.white then
    { gs with whiteCanCastleKingside := false, whiteCanCastleQueenside := false }
  else
    { gs with blackCanCastleKingside := false, blackCanCastleQueenside := false }

/-- King block of `movePiece`, board part: a two-column king move relocates
the corresponding rook (column 7 to 5, or column 0 to 3). -/
def castleRookRelocation (board : Board) (f t : Position) : Board :=
  if (f.col - t.col).natAbs = 2 then
    if t.col > f.col then
      boardSet (boardSet board ⟨f.row, 5⟩ (board ⟨f.row, 7⟩)) ⟨f.row, 7⟩ none
    else
      boardSet (boardSet board ⟨f.row, 3⟩ (board ⟨f.row, 0⟩)) ⟨f.row, 0⟩ none
  else board

/-- Rook block of `movePiece`: a rook leaving its home square clears the
matching castling-rights flag of its color. -/
def rookRightsUpdate (color : Color) (f : Position) (gs : GameState) : GameState :=
  if color = Color.white then
    if f.row = 7 ∧ f.col = 0 then { gs with whiteCanCastleQueenside := false }
    else if f.row = 7 ∧ f.col = 7 then { gs with whiteCanCastleKingside := false }
    else gs
  else
    if f.row = 0 ∧ f.col = 0 then { gs with blackCanCastleQueenside := false }
    else if f.row = 0 ∧ f.col = 7 then { gs with blackCanCastleKingside := false }
    else gs

/-- Capture block of `movePiece`: capturing a rook on a castling-relevant
home square clears the matching flag of the captured color. -/
def captureRightsUpdate (color : Color) (t : Position) (gs : GameState) : GameState :=
  if color = Color.white then
    if t.row = 7 ∧ t.col = 0 then { gs with whiteCanCastleQueenside := false }
    else if t.row = 7 ∧ t.col = 7 then { gs with whiteCanCastleKingside := false }
    else gs
  else
    if t.row = 0 ∧ t.col = 0 then { gs with blackCanCastleQueenside := false }
    else if t.row = 0 ∧ t.col = 7 then { gs with blackCanCastleKingside := false }
    else gs

/-- The kind of the moved piece after the pawn block of `movePiece`: the
source mutates `piece.type` on promotion before the king and rook blocks
test it, so those blocks see this updated kind. -/
def movePieceNewType (piece : ChessPiece) (t : Position)
    (promotionPiece : Option PieceType) : PieceType :=
  if piece.type = PieceType.pawn then promotedType piece t promotionPiece
  else piece.type

/-- The board after the pawn block of `movePiece` (en-passant removal). -/
def movePieceBoard1 (board : Board) (piece : ChessPiece) (t : Position)
    (gs : GameState) : Board :=
  if piece.type = PieceType.pawn then epCaptureRemoval board piece t gs
  else board

/-- `movePiece(board, from, to, gameState, promotionPiece?)`: apply a move on
a board copy, threading the clock, en-passant, promotion, castling and
rights updates of the source in order. The final placement writes the moved
piece (possibly promoted, `hasMoved = true`) to `to` and clears `from`. -/
def movePiece (board : Board) (f t : Position) (gs : GameState)
    (promotionPiece : Option PieceType) : MoveResult :=
  let newBoard := cloneBoard board
  match newBoard f with
  | none => ⟨newBoard, gs, none⟩
  | some piece =>
    let capturedPiece := newBoard t
    let gs1 :=
      if piece.type = PieceType.pawn ∨ capturedPiece.isSome then
        { gs with halfMoveClock := 0 }
      else { gs with halfMoveClock := gs.halfMoveClock + 1 }
    let gs2 :=
      if piece.color = Color.black then
        { gs1 with fullMoveNumber := gs1.fullMoveNumber + 1 }
      else gs1
    let board1 := movePieceBoard1 newBoard piece t gs
    let gs3 :=
      if piece.type = PieceType.pawn then pawnEPTargetUpdate piece f t gs2
      else { gs2 with enPassantTarget := none }
    let newType := movePieceNewType piece t promotionPiece
    let gs4 := if newType = PieceType.king then kingRightsUpdate piece.color gs3 else gs3
    let board2 := if newType = PieceType.king then castleRookRelocation board1 f t else board1
    let gs5 := if newType = PieceType.rook then rookRightsUpdate piece.color f gs4 else gs4
    let gs6 :=
      match capturedPiece with
      | some cp =>
        if cp.type = PieceType.rook then captureRightsUpdate cp.color t gs5 else gs5
      | none => gs5
    let movedPiece : ChessPiece := ⟨newType, piece.color, true⟩
    let board3 := boardSet (boardSet board2 t (some movedPiece)) f none
    ⟨board3, gs6, capturedPiece⟩

/-! ## Legal-move filter and terminal detection -/

/-- `getPossibleMoves`: per-kind pseudo-legal moves, filtered to exclude any
move whose simulated execution leaves the mover's own king in check. -/
def getPossibleMoves (board : Board) (position : Position) (gs : GameState) :
    List Position :=
  match board position with
  | none => []
  | some piece =>
    let moves :=
      match piece.type with
      | PieceType.pawn => getPawnMoves board position gs
      | PieceType.rook => getRookMoves board position
      | PieceType.knight => getKnightMoves board position
      | PieceType.bishop => getBishopMoves board position
      | PieceType.queen => getQueenMoves board position
      | PieceType.king => getKingMoves board position gs
    moves.filter fun move =>
      let result := movePiece board position move gs none
      let cleanNewBoard := cleanBoard result.newBoard
      !isKingInCheck cleanNewBoard piece.color gs

/-- `isCheckmate`: in check, and no piece of the color has any move. -/
def isCheckmate (board : Board) (color : Color) (gs : GameState) : Bool :=
  if !isKingInCheck board color gs then false
  else
    boardPositions.all fun pos =>
      match board pos with
      | some piece =>
        if piece.color = color then
          if (getPossibleMoves board pos gs).length > 0 then false else true
        else true
      | none => true

/-- `isStalemate`: not in check, and no piece of the color has any move. -/
def isStalemate (board : Board) (color : Color) (gs : GameState) : Bool :=
  if isKingInCheck board color gs then false
  else
    boardPositions.all fun pos =>
      match board pos with
      | some piece =>
        if piece.color = color then
          if (getPossibleMoves board pos gs).length > 0 then false else true
        else true
      | none => true

/-! ## SAN generator (`generateNotation` / `findAmbiguousPieces` of the
board component; `board` below is the component's pre-move board state that
the source closes over) -/

/-- `files` array; out-of-range indices render as the string coercion of
`undefined`, matching the source's string concatenation. -/
def fileStr (c : Int) : String :=
  (["a", "b", "c", "d", "e", "f", "g", "h"].get? c.toNat).getD "undefined"

/-- `ranks` array (rank text is 8 minus the row). -/
def rankStr (r : Int) : String :=
  (["8", "7", "6", "5", "4", "3", "2", "1"].get? r.toNat).getD "undefined"

/-- Piece letter: `"N"` for a knight, otherwise the capitalized first letter
of the kind name. -/
def pieceLetter (t : PieceType) : String :=
  match t with
  | PieceType.pawn => "P"
  | PieceType.rook => "R"
  | PieceType.knight => "N"
  | PieceType.bishop => "B"
  | PieceType.queen => "Q"
  | PieceType.king => "K"

/-- `findAmbiguousPieces`: every other square, in row-major order, holding a
piece of the same kind and color whose legal moves reach `t`. -/
def findAmbiguousPieces (board : Board) (piece : ChessPiece) (f t : Position)
    (gs : GameState) : List Position :=
  boardPositions.filter fun pos =>
    if pos.row = f.row ∧ pos.col = f.col then false
    else
      match board pos with
      | some currentPiece =>
        if currentPiece.type = piece.type ∧ currentPiece.color = piece.color then
          (getPossibleMoves board pos gs).any fun move =>
            decide (move.row = t.row ∧ move.col = t.col)
        else false
      | none => false

/-- `generateNotation`: castling short-circuit, then piece letter, pawn
capture file, disambiguation, capture mark, destination, promotion suffix,
and check or mate suffix, appended in the source's order. -/
def generateSAN (board : Board) (piece : ChessPiece) (f t : Position)
    (capturedPiece : Option ChessPiece) (newBoard : Board) (gs : GameState)
    (promotionPiece : Option PieceType) : String :=
  if piece.type = PieceType.king ∧ (f.col - t.col).natAbs = 2 then
    if t.col > f.col then "O-O" else "O-O-O"
  else
    let n0 := if piece.type ≠ PieceType.pawn then pieceLetter piece.type else ""
    let n1 := n0 ++
      (if piece.type = PieceType.pawn ∧ capturedPiece.isSome then fileStr f.col else "")
    let ambiguousPieces := findAmbiguousPieces board piece f t gs
    let n2 := n1 ++
      (if ambiguousPieces.length > 0 then
        if ambiguousPieces.all fun p => decide (p.col ≠ f.col) then fileStr f.col
        else if ambiguousPieces.all fun p => decide (p.row ≠ f.row) then rankStr f.row
        else fileStr f.col ++ rankStr f.row
      else "")
    let n3 := n2 ++ (if capturedPiece.isSome then "x" else "")
    let n4 := n3 ++ fileStr t.col ++ rankStr t.row
    let n5 := n4 ++
      (match promotionPiece with
       | some pt => "=" ++ pieceLetter pt
       | none => "")
    let nextPlayer := opponentColor piece.color
    if isCheckmate newBoard nextPlayer gs then n5 ++ "#"
    else if isKingInCheck newBoard nextPlayer gs then n5 ++ "+"
    else n5

/-! ## Concrete fixtures used by witnesses -/

/-- The initial game state of the component. -/
def gs0 : GameState := ⟨true, true, true, true, none, 0, 1⟩

/-- The empty board. -/
def emptyBoard : Board := fun _ => none

/-! ## Helper lemmas -/

@[simp] theorem cloneBoard_apply (b : Board) (q : Position) :
    cloneBoard b q = b q := rfl

@[simp] theorem cloneBoard_id (b : Board) : cloneBoard b = b := rfl

@[simp] theorem cleanBoard_eq (b : Board) : cleanBoard b = b := rfl

theorem pawnAttackEPBranch_eq_true (gs : GameState) (dir : Position) :
    pawnAttackEPBranch gs dir = true := by
  unfold pawnAttackEPBranch
  cases gs.enPassantTarget <;> simp

theorem pawnAttackScan_eq_plain (b : Board) (pos : Position) (c : Color)
    (gs : GameState) :
    pawnAttackScan b pos c gs = pawnAttackScanPlain b pos c := by
  unfold pawnAttackScan pawnAttackScanPlain
  simp only [pawnAttackEPBranch_eq_true]

theorem underAttack_gs_irrel (b : Board) (pos : Position) (c : Color)
    (gs gs2 : GameState) :
    isPositionUnderAttack b pos c gs = isPositionUnderAttack b pos c gs2 := by
  unfold isPositionUnderAttack
  rw [pawnAttackScan_eq_plain, pawnAttackScan_eq_plain]

theorem isKingInCheck_gs_irrel (b : Board) (c : Color) (gs gs2 : GameState) :
    isKingInCheck b c gs = isKingInCheck b c gs2 := by
  unfold isKingInCheck
  cases findKing b c
  · rfl
  · exact underAttack_gs_irrel _ _ _ gs gs2

/-! ## C6: the en-passant branch of the attack detector is redundant -/

/-- C6: `isPositionUnderAttack` is extensionally equal, for every board,
square, color, and game state, to the variant of itself with the
`enPassantTarget` comparison removed from the pawn branch, since both
branches of that comparison return `true`. -/
theorem isPositionUnderAttack_ep_redundant :
    ∀ (board : Board) (position : Position) (color : Color) (gs : GameState),
      isPositionUnderAttack board position color gs
        = isPositionUnderAttackNoEP board position color := by
  intro b pos c gs
  unfold isPositionUnderAttack isPositionUnderAttackNoEP
  rw [pawnAttackScan_eq_plain]

/-! ## C2: legality soundness of the simulate-then-filter strategy -/

/-- C2: every move returned by `getPossibleMoves` for an occupied square,
applied via `movePiece` to that board and state, yields a resulting
position in which the moving piece's own king is not under attack by the
opponent (the check predicate `isKingInCheck` is false on the resulting
board and resulting game state). -/
theorem getPossibleMoves_king_safe :
    ∀ (board : Board) (position : Position) (gs : GameState)
      (piece : ChessPiece) (move : Position),
      board position = some piece →
      move ∈ getPossibleMoves board position gs →
      isKingInCheck (movePiece board position move gs none).newBoard
        piece.color (movePiece board position move gs none).newGameState = false := by
  intro b pos gs p m hb hm
  unfold getPossibleMoves at hm
  rw [hb] at hm
  have h2 := (List.mem_filter.mp hm).2
  simp only [cleanBoard_eq, Bool.not_eq_true'] at h2
  rw [isKingInCheck_gs_irrel _ _ _ gs]
  exact h2

/-- Witness for C2: on a board holding a single white knight at the corner,
the generated move to row 2, column 1 is applied and leaves no check. -/
theorem getPossibleMoves_king_safe_witness :
    (fun q => if q = ⟨0, 0⟩ then some ⟨PieceType.knight, Color.white, false⟩
      else none : Board) ⟨0, 0⟩ = some ⟨PieceType.knight, Color.white, false⟩ ∧
    (⟨2, 1⟩ : Position) ∈ getPossibleMoves
      (fun q => if q = ⟨0, 0⟩ then some ⟨PieceType.knight, Color.white, false⟩ else none)
      ⟨0, 0⟩ gs0 ∧
    isKingInCheck
      (movePiece
        (fun q => if q = ⟨0, 0⟩ then some ⟨PieceType.knight, Color.white, false⟩ else none)
        ⟨0, 0⟩ ⟨2, 1⟩ gs0 none).newBoard
      Color.white
      (movePiece
        (fun q => if q = ⟨0, 0⟩ then some ⟨PieceType.knight, Color.white, false⟩ else none)
        ⟨0, 0⟩ ⟨2, 1⟩ gs0 none).newGameState = false :=
  ⟨rfl, by decide,
    getPossibleMoves_king_safe _ _ _ ⟨PieceType.knight, Color.white, false⟩ _
      rfl (by decide)⟩

/-! ## C8: degenerate inputs degrade to empty results -/

/-- C8: requesting moves for an empty square yields the empty list, and
executing a move from an empty origin returns the input board, the input
state, and no captured piece. -/
theorem emptySquare_degenerate :
    ∀ (board : Board) (position t : Position) (gs : GameState)
      (promo : Option PieceType),
      board position = none →
      getPossibleMoves board position gs = [] ∧
        movePiece board position t gs promo = ⟨board, gs, none⟩ := by
  intro b pos t gs promo h
  constructor
  · unfold getPossibleMoves
    rw [h]
  · simp only [movePiece, cloneBoard_id, h]

/-- Witness for C8 at the empty board. -/
theorem emptySquare_degenerate_witness :
    getPossibleMoves emptyBoard ⟨0, 0⟩ gs0 = [] ∧
      movePiece emptyBoard ⟨0, 0⟩ ⟨1, 1⟩ gs0 none = ⟨emptyBoard, gs0, none⟩ :=
  emptySquare_degenerate emptyBoard ⟨0, 0⟩ ⟨1, 1⟩ gs0 none rfl

/-! ## C9: check queries and the missing-king case -/

theorem mem_boardPositions (pos : Position) :
    pos ∈ boardPositions ↔ isValidPosition pos = true := by
  unfold boardPositions isValidPosition
  simp only [List.mem_flatMap, List.mem_map, List.mem_range, decide_eq_true_eq]
  constructor
  · rintro ⟨r, hr, c, hc, rfl⟩
    refine ⟨?_, ?_, ?_, ?_⟩ <;> simp <;> omega
  · rintro ⟨h1, h2, h3, h4⟩
    refine ⟨pos.row.toNat, by omega, pos.col.toNat, by omega, ?_⟩
    cases pos with
    | mk r c =>
      simp only [Position.mk.injEq]
      exact ⟨by simp at h1 h2 ⊢; omega, by simp at h3 h4 ⊢; omega⟩

theorem findKing_isSome_iff (b : Board) (c : Color) :
    (findKing b c).isSome = true ↔
      ∃ pos : Position, isValidPosition pos = true ∧
        ∃ hm : Bool, b pos = some ⟨PieceType.king, c, hm⟩ := by
  unfold findKing
  rw [List.find?_isSome]
  constructor
  · rintro ⟨pos, hmem, hp⟩
    refine ⟨pos, (mem_boardPositions pos).mp hmem, ?_⟩
    revert hp
    cases hbp : b pos with
    | none => intro hp; cases hp
    | some piece =>
      intro hp
      simp only [decide_eq_true_eq] at hp
      exact ⟨piece.hasMoved, by cases piece; simp_all⟩
  · rintro ⟨pos, hv, hm, hbp⟩
    refine ⟨pos, (mem_boardPositions pos).mpr hv, ?_⟩
    rw [hbp]
    simp

/-- C9: `isKingInCheck` is true exactly when a king of the color is found
and its square is under attack by the opponent; the king search succeeds
exactly when a king of the color stands on some valid square; and when no
king is found, `isKingInCheck` and `isCheckmate` are deterministically
false. -/
theorem isKingInCheck_spec :
    ∀ (board : Board) (color : Color) (gs : GameState),
      (isKingInCheck board color gs = true ↔
        ∃ kingPos : Position, findKing board color = some kingPos ∧
          isPositionUnderAttack board kingPos color gs = true) ∧
      ((findKing board color).isSome = true ↔
        ∃ pos : Position, isValidPosition pos = true ∧
          ∃ hm : Bool, board pos = some ⟨PieceType.king, color, hm⟩) ∧
      (findKing board color = none →
        isKingInCheck board color gs = false ∧
          isCheckmate board color gs = false) := by
  intro b c gs
  refine ⟨?_, findKing_isSome_iff b c, ?_⟩
  · unfold isKingInCheck
    cases hk : findKing b c with
    | none => simp
    | some k =>
      constructor
      · intro h; exact ⟨k, rfl, h⟩
      · rintro ⟨k2, hk2, h⟩
        injection hk2 with h3
        rw [h3]
        exact h
  · intro hnone
    have h1 : isKingInCheck b c gs = false := by
      unfold isKingInCheck
      rw [hnone]
    refine ⟨h1, ?_⟩
    unfold isCheckmate
    rw [h1]
    simp

/-- Witness for C9 at the empty board (no white king present). -/
theorem isKingInCheck_spec_witness :
    isKingInCheck emptyBoard Color.white gs0 = false ∧
      isCheckmate emptyBoard Color.white gs0 = false :=
  (isKingInCheck_spec emptyBoard Color.white gs0).2.2 (by decide)

/-! ## C1: the pawn branch of the attack detector probes the wrong side -/

/-- Fixture: a single black pawn on row 3, column 3; in chess (and per the
spec) it attacks the white-defended square on row 4, column 4 (one row
toward row 0, diagonally adjacent). Every other square is empty. -/
def bC1a : Board := fun q =>
  if q = ⟨3, 3⟩ then some ⟨PieceType.pawn, Color.black, false⟩ else none

/-- Fixture: a single black pawn on row 5, column 3; in chess (and per the
spec) it does NOT attack the square on row 4, column 4 (a black pawn
captures toward row 7, not backwards). Every other square is empty. -/
def bC1b : Board := fun q =>
  if q = ⟨5, 3⟩ then some ⟨PieceType.pawn, Color.black, false⟩ else none

/-- C1 (code bug): the attack detector probes the defender-side diagonal
squares (row 4 plus 1 for a white defender) instead of the squares from
which an opposing pawn could capture (row 4 minus 1). The black pawn one
row toward row 0 of the white-defended square is NOT reported as an
attacker, while a black pawn one row toward row 7 IS, both contradicting
the claim. -/
theorem pawnAttack_direction_bug :
    bC1a ⟨3, 3⟩ = some ⟨PieceType.pawn, Color.black, false⟩ ∧
    isPositionUnderAttack bC1a ⟨4, 4⟩ Color.white gs0 = false ∧
    bC1b ⟨5, 3⟩ = some ⟨PieceType.pawn, Color.black, false⟩ ∧
    isPositionUnderAttack bC1b ⟨4, 4⟩ Color.white gs0 = true :=
  ⟨rfl, by decide, rfl, by decide⟩

/-! ## C5: castling-rights flags are monotone under move execution -/

/-- Each castling-rights flag of the first state implies the same flag of
the second: the first state's rights are at most the second state's. -/
def RightsLE (g1 g2 : GameState) : Prop :=
  (g1.whiteCanCastleKingside = true → g2.whiteCanCastleKingside = true) ∧
  (g1.whiteCanCastleQueenside = true → g2.whiteCanCastleQueenside = true) ∧
  (g1.blackCanCastleKingside = true → g2.blackCanCastleKingside = true) ∧
  (g1.blackCanCastleQueenside = true → g2.blackCanCastleQueenside = true)

theorem RightsLE_refl (g : GameState) : RightsLE g g :=
  ⟨id, id, id, id⟩

theorem RightsLE_trans {g1 g2 g3 : GameState}
    (h1 : RightsLE g1 g2) (h2 : RightsLE g2 g3) : RightsLE g1 g3 :=
  ⟨fun h => h2.1 (h1.1 h), fun h => h2.2.1 (h1.2.1 h),
   fun h => h2.2.2.1 (h1.2.2.1 h), fun h => h2.2.2.2 (h1.2.2.2 h)⟩

theorem RightsLE_ite {c : Prop} [Decidable c] {a b g : GameState}
    (h1 : RightsLE a g) (h2 : RightsLE b g) : RightsLE (if c then a else b) g := by
  split
  · exact h1
  · exact h2

theorem RightsLE_clock (g : GameState) (n : Nat) :
    RightsLE { g with halfMoveClock := n } g := ⟨id, id, id, id⟩

theorem RightsLE_fullMove (g : GameState) (n : Nat) :
    RightsLE { g with fullMoveNumber := n } g := ⟨id, id, id, id⟩

theorem RightsLE_ep (g : GameState) (e : Option Position) :
    RightsLE { g with enPassantTarget := e } g := ⟨id, id, id, id⟩

theorem pawnEPTargetUpdate_le (p : ChessPiece) (f t : Position) (g : GameState) :
    RightsLE (pawnEPTargetUpdate p f t g) g := by
  unfold pawnEPTargetUpdate
  split
  · exact RightsLE_ep _ _
  · exact RightsLE_ep _ _

theorem kingRightsUpdate_le (c : Color) (g : GameState) :
    RightsLE (kingRightsUpdate c g) g := by
  unfold kingRightsUpdate
  split <;> refine ⟨?_, ?_, ?_, ?_⟩ <;> simp

theorem rookRightsUpdate_le (c : Color) (f : Position) (g : GameState) :
    RightsLE (rookRightsUpdate c f g) g := by
  unfold rookRightsUpdate
  split_ifs <;> refine ⟨?_, ?_, ?_, ?_⟩ <;> simp

theorem captureRightsUpdate_le (c : Color) (t : Position) (g : GameState) :
    RightsLE (captureRightsUpdate c t g) g := by
  unfold captureRightsUpdate
  split_ifs <;> refine ⟨?_, ?_, ?_, ?_⟩ <;> simp

theorem captureStage_le (cap : Option ChessPiece) (t : Position) (g : GameState) :
    RightsLE
      (match cap with
       | some cp =>
         if cp.type = PieceType.rook then captureRightsUpdate cp.color t g else g
       | none => g) g := by
  cases cap with
  | none => exact RightsLE_refl g
  | some cp => exact RightsLE_ite (captureRightsUpdate_le _ _ _) (RightsLE_refl g)

/-- C5: each of the four castling-rights flags returned by `movePiece` is
true only if the same flag was true in the input state; a cleared flag is
never set back. -/
theorem movePiece_castleRights_monotone :
    ∀ (board : Board) (f t : Position) (gs : GameState)
      (promo : Option PieceType),
      ((movePiece board f t gs promo).newGameState.whiteCanCastleKingside = true →
        gs.whiteCanCastleKingside = true) ∧
      ((movePiece board f t gs promo).newGameState.whiteCanCastleQueenside = true →
        gs.whiteCanCastleQueenside = true) ∧
      ((movePiece board f t gs promo).newGameState.blackCanCastleKingside = true →
        gs.blackCanCastleKingside = true) ∧
      ((movePiece board f t gs promo).newGameState.blackCanCastleQueenside = true →
        gs.blackCanCastleQueenside = true) := by
  intro b f t gs promo
  have key : RightsLE (movePiece b f t gs promo).newGameState gs := by
    unfold movePiece
    simp only [cloneBoard_id]
    cases hb : b f with
    | none => exact RightsLE_refl gs
    | some p =>
      dsimp only
      refine RightsLE_trans (captureStage_le _ _ _) ?_
      refine RightsLE_trans
        (RightsLE_ite (rookRightsUpdate_le _ _ _) (RightsLE_refl _)) ?_
      refine RightsLE_trans
        (RightsLE_ite (kingRightsUpdate_le _ _) (RightsLE_refl _)) ?_
      refine RightsLE_trans
        (RightsLE_ite (pawnEPTargetUpdate_le _ _ _ _) (RightsLE_ep _ _)) ?_
      refine RightsLE_trans
        (RightsLE_ite (RightsLE_fullMove _ _) (RightsLE_refl _)) ?_
      exact RightsLE_ite (RightsLE_clock _ _) (RightsLE_clock _ _)
  exact key

/-! ## C3: kingside castling is denied when any relevant square is attacked -/

theorem mem_ite_cases {α : Type} {c : Prop} [Decidable c] {a : α}
    {l1 l2 : List α} (h : a ∈ if c then l1 else l2) :
    (c ∧ a ∈ l1) ∨ (¬c ∧ a ∈ l2) := by
  by_cases hc : c
  · rw [if_pos hc] at h
    exact Or.inl ⟨hc, h⟩
  · rw [if_neg hc] at h
    exact Or.inr ⟨hc, h⟩

theorem mem_kingsideCastleMoves {b : Board} {pos : Position} {p : ChessPiece}
    {gs : GameState} {m : Position}
    (h : m ∈ kingsideCastleMoves b pos p gs) :
    m = ⟨pos.row, pos.col + 2⟩ ∧
      isKingInCheck b p.color gs = false ∧
      isPositionUnderAttack b ⟨pos.row, pos.col + 1⟩ p.color gs = false := by
  unfold kingsideCastleMoves at h
  rcases mem_ite_cases h with ⟨_, h⟩ | ⟨_, h⟩
  swap
  · exact absurd h (List.not_mem_nil m)
  cases hr : b ⟨pos.row, 7⟩ <;> rw [hr] at h
  · exact absurd h (List.not_mem_nil m)
  rcases mem_ite_cases h with ⟨_, h⟩ | ⟨_, h⟩
  swap
  · exact absurd h (List.not_mem_nil m)
  rcases mem_ite_cases h with ⟨hguard, h⟩ | ⟨_, h⟩
  swap
  · exact absurd h (List.not_mem_nil m)
  rw [List.mem_singleton] at h
  rw [Bool.and_eq_true, Bool.and_eq_true, Bool.not_eq_true',
    Bool.not_eq_true'] at hguard
  exact ⟨h, hguard.2.1, hguard.2.2⟩

theorem mem_queensideCastleMoves {b : Board} {pos : Position} {p : ChessPiece}
    {gs : GameState} {m : Position}
    (h : m ∈ queensideCastleMoves b pos p gs) :
    m = ⟨pos.row, pos.col - 2⟩ := by
  unfold queensideCastleMoves at h
  rcases mem_ite_cases h with ⟨_, h⟩ | ⟨_, h⟩
  swap
  · exact absurd h (List.not_mem_nil m)
  cases hr : b ⟨pos.row, 0⟩ <;> rw [hr] at h
  · exact absurd h (List.not_mem_nil m)
  rcases mem_ite_cases h with ⟨_, h⟩ | ⟨_, h⟩
  swap
  · exact absurd h (List.not_mem_nil m)
  rcases mem_ite_cases h with ⟨_, h⟩ | ⟨_, h⟩
  swap
  · exact absurd h (List.not_mem_nil m)
  rw [List.mem_singleton] at h
  exact h

theorem mem_getKingMoves {b : Board} {pos : Position} {gs : GameState}
    {p : ChessPiece} {m : Position}
    (hb : b pos = some p) (hk : p.type = PieceType.king)
    (h : m ∈ getKingMoves b pos gs) :
    m ∈ kingOffsets pos ∨ m ∈ kingsideCastleMoves b pos p gs ∨
      m ∈ queensideCastleMoves b pos p gs := by
  unfold getKingMoves at h
  rw [hb] at h
  rcases mem_ite_cases h with ⟨_, h⟩ | ⟨_, h⟩
  swap
  · exact absurd h (List.not_mem_nil m)
  rcases List.mem_append.mp h with h1 | h2
  · exact Or.inl (List.mem_filter.mp h1).1
  · rcases mem_ite_cases h2 with ⟨_, h3⟩ | ⟨_, h3⟩
    swap
    · exact absurd h3 (List.not_mem_nil m)
    rcases List.mem_append.mp h3 with h4 | h5
    · exact Or.inr (Or.inl h4)
    · exact Or.inr (Or.inr h5)

/-- C3: for a king on a square, the two-square kingside castling
destination is excluded from `getPossibleMoves` whenever the king's
current square is attacked, or the square it passes through is attacked,
or the landing square is unsafe (simulating the full move leaves the king
in check), even if the current square alone is safe. -/
theorem castling_denied_when_attacked :
    ∀ (board : Board) (position : Position) (gs : GameState)
      (piece : ChessPiece),
      board position = some piece →
      piece.type = PieceType.king →
      (isKingInCheck board piece.color gs = true ∨
        isPositionUnderAttack board ⟨position.row, position.col + 1⟩
          piece.color gs = true ∨
        isKingInCheck
          (movePiece board position ⟨position.row, position.col + 2⟩ gs none).newBoard
          piece.color gs = true) →
      (⟨position.row, position.col + 2⟩ : Position) ∉
        getPossibleMoves board position gs := by
  intro b pos gs p hb hk hcond hmem
  unfold getPossibleMoves at hmem
  rw [hb] at hmem
  have hfilter := List.mem_filter.mp hmem
  have hpred := hfilter.2
  dsimp only at hpred
  simp only [cleanBoard_eq, Bool.not_eq_true'] at hpred
  have hgen : (⟨pos.row, pos.col + 2⟩ : Position) ∈ getKingMoves b pos gs := by
    have h1 := hfilter.1
    rw [hk] at h1
    exact h1
  rcases hcond with h1 | h2 | h3
  · rcases mem_getKingMoves hb hk hgen with hko | hks | hqs
    · simp only [kingOffsets, List.mem_cons, List.mem_singleton,
        Position.mk.injEq, List.not_mem_nil, or_false] at hko
      omega
    · rw [(mem_kingsideCastleMoves hks).2.1] at h1
      cases h1
    · have := mem_queensideCastleMoves hqs
      simp only [Position.mk.injEq] at this
      omega
  · rcases mem_getKingMoves hb hk hgen with hko | hks | hqs
    · simp only [kingOffsets, List.mem_cons, List.mem_singleton,
        Position.mk.injEq, List.not_mem_nil, or_false] at hko
      omega
    · rw [(mem_kingsideCastleMoves hks).2.2] at h2
      cases h2
    · have := mem_queensideCastleMoves hqs
      simp only [Position.mk.injEq] at this
      omega
  · rw [hpred] at h3
    cases h3

/-- Witness board for C3: a castle-ready white king and rook with a black
rook attacking the pass-through square on column 5. -/
def bC3 : Board := fun q =>
  if q = ⟨7, 4⟩ then some ⟨PieceType.king, Color.white, false⟩
  else if q = ⟨7, 7⟩ then some ⟨PieceType.rook, Color.white, false⟩
  else if q = ⟨0, 5⟩ then some ⟨PieceType.rook, Color.black, false⟩ else none

/-- Witness for C3: the pass-through square is attacked, so the two-square
destination is excluded even though path squares are empty and the rights
are set. -/
theorem castling_denied_when_attacked_witness :
    bC3 ⟨7, 4⟩ = some ⟨PieceType.king, Color.white, false⟩ ∧
      isPositionUnderAttack bC3 ⟨7, 5⟩ Color.white gs0 = true ∧
      (⟨7, 6⟩ : Position) ∉ getPossibleMoves bC3 ⟨7, 4⟩ gs0 :=
  ⟨rfl, by decide,
    castling_denied_when_attacked bC3 ⟨7, 4⟩ gs0
      ⟨PieceType.king, Color.white, false⟩ rfl rfl
      (Or.inr (Or.inl (by decide)))⟩

/-! ## C4: the en-passant target after move execution -/

theorem pawnDirection_cases (c : Color) :
    pawnDirection c = -1 ∨ pawnDirection c = 1 := by
  unfold pawnDirection
  split
  · exact Or.inl rfl
  · exact Or.inr rfl

/-- Every generated pawn move is the single advance, the double advance
from the starting row, or one of the two diagonal captures. -/
theorem mem_getPawnMoves {b : Board} {pos : Position} {gs : GameState}
    {p : ChessPiece} {m : Position}
    (hb : b pos = some p) (h : m ∈ getPawnMoves b pos gs) :
    m = ⟨pos.row + pawnDirection p.color, pos.col⟩ ∨
    (m = ⟨pos.row + 2 * pawnDirection p.color, pos.col⟩ ∧
      pos.row = pawnStartingRow p.color) ∨
    m = ⟨pos.row + pawnDirection p.color, pos.col - 1⟩ ∨
    m = ⟨pos.row + pawnDirection p.color, pos.col + 1⟩ := by
  unfold getPawnMoves at h
  rw [hb] at h
  rcases mem_ite_cases h with ⟨_, h⟩ | ⟨_, h⟩
  swap
  · exact absurd h (List.not_mem_nil m)
  rcases List.mem_append.mp h with h1 | h2
  · rcases mem_ite_cases h1 with ⟨_, h1⟩ | ⟨_, h1⟩
    swap
    · exact absurd h1 (List.not_mem_nil m)
    rcases List.mem_cons.mp h1 with h3 | h3
    · exact Or.inl h3
    · rcases mem_ite_cases h3 with ⟨hrow, h3⟩ | ⟨_, h3⟩
      swap
      · exact absurd h3 (List.not_mem_nil m)
      rcases mem_ite_cases h3 with ⟨_, h3⟩ | ⟨_, h3⟩
      swap
      · exact absurd h3 (List.not_mem_nil m)
      rw [List.mem_singleton] at h3
      exact Or.inr (Or.inl ⟨h3, hrow⟩)
  · rcases List.mem_flatMap.mp h2 with ⟨cp, hcp, hm2⟩
    have hmc : m = cp := by
      rcases mem_ite_cases hm2 with ⟨_, hm2⟩ | ⟨_, hm2⟩
      swap
      · exact absurd hm2 (List.not_mem_nil m)
      cases hbc : b cp <;> rw [hbc] at hm2
      · cases hep : gs.enPassantTarget <;> rw [hep] at hm2
        · exact absurd hm2 (List.not_mem_nil m)
        · rcases mem_ite_cases hm2 with ⟨_, hm2⟩ | ⟨_, hm2⟩
          swap
          · exact absurd hm2 (List.not_mem_nil m)
          rw [List.mem_singleton] at hm2
          exact hm2
      · rcases mem_ite_cases hm2 with ⟨_, hm2⟩ | ⟨_, hm2⟩
        swap
        · exact absurd hm2 (List.not_mem_nil m)
        rw [List.mem_singleton] at hm2
        exact hm2
    subst hmc
    rcases List.mem_cons.mp hcp with h4 | h4
    · exact Or.inr (Or.inr (Or.inl h4))
    · rw [List.mem_singleton] at h4
      exact Or.inr (Or.inr (Or.inr h4))

@[simp] theorem kingRightsUpdate_ep (c : Color) (g : GameState) :
    (kingRightsUpdate c g).enPassantTarget = g.enPassantTarget := by
  unfold kingRightsUpdate
  split <;> rfl

@[simp] theorem rookRightsUpdate_ep (c : Color) (f : Position) (g : GameState) :
    (rookRightsUpdate c f g).enPassantTarget = g.enPassantTarget := by
  unfold rookRightsUpdate
  split_ifs <;> rfl

@[simp] theorem captureRightsUpdate_ep (c : Color) (t : Position) (g : GameState) :
    (captureRightsUpdate c t g).enPassantTarget = g.enPassantTarget := by
  unfold captureRightsUpdate
  split_ifs <;> rfl

theorem captureStage_ep (cap : Option ChessPiece) (t : Position) (g : GameState) :
    (match cap with
     | some cp =>
       if cp.type = PieceType.rook then captureRightsUpdate cp.color t g else g
     | none => g).enPassantTarget = g.enPassantTarget := by
  cases cap with
  | none => rfl
  | some cp =>
    show (if cp.type = PieceType.rook then captureRightsUpdate cp.color t g
      else g).enPassantTarget = g.enPassantTarget
    split
    · rw [captureRightsUpdate_ep]
    · rfl

theorem king_stage_ep {c : Prop} [Decidable c] (col : Color) (g : GameState) :
    (if c then kingRightsUpdate col g else g).enPassantTarget = g.enPassantTarget := by
  split
  · rw [kingRightsUpdate_ep]
  · rfl

theorem rook_stage_ep {c : Prop} [Decidable c] (col : Color) (f : Position)
    (g : GameState) :
    (if c then rookRightsUpdate col f g else g).enPassantTarget = g.enPassantTarget := by
  split
  · rw [rookRightsUpdate_ep]
  · rfl

theorem pawnEPTargetUpdate_ep (p : ChessPiece) (f t : Position) (g : GameState) :
    (pawnEPTargetUpdate p f t g).enPassantTarget
      = if (f.row - t.row).natAbs = 2 then
          some ⟨(if p.color = Color.white then f.row - 1 else f.row + 1), f.col⟩
        else none := by
  unfold pawnEPTargetUpdate
  split <;> rfl

/-- The en-passant target returned by `movePiece` when a piece is present:
set by a pawn moving exactly two rows, cleared otherwise. -/
theorem movePiece_ep_formula (b : Board) (f t : Position) (gs : GameState)
    (promo : Option PieceType) (p : ChessPiece) (hb : b f = some p) :
    (movePiece b f t gs promo).newGameState.enPassantTarget
      = if p.type = PieceType.pawn then
          (if (f.row - t.row).natAbs = 2 then
            some ⟨(if p.color = Color.white then f.row - 1 else f.row + 1), f.col⟩
          else none)
        else none := by
  unfold movePiece
  simp only [cloneBoard_id, hb]
  rw [captureStage_ep, rook_stage_ep, king_stage_ep]
  split
  · rw [pawnEPTargetUpdate_ep]
  · rfl

/-- C4: for every occupied origin and generated move applied via
`movePiece`, the returned `enPassantTarget` equals the square passed over
exactly when the move is a two-square pawn advance, and is null for every
other pawn move and for every non-pawn move; in particular the previous
target never survives a move application. -/
theorem movePiece_enPassantTarget :
    ∀ (board : Board) (f : Position) (gs : GameState)
      (promo : Option PieceType) (piece : ChessPiece) (m : Position),
      board f = some piece →
      m ∈ getPossibleMoves board f gs →
      (movePiece board f m gs promo).newGameState.enPassantTarget
        = if piece.type = PieceType.pawn ∧
            m = ⟨f.row + 2 * pawnDirection piece.color, f.col⟩ then
            some ⟨f.row + pawnDirection piece.color, f.col⟩
          else none := by
  intro b f gs promo p m hb hm
  rw [movePiece_ep_formula b f m gs promo p hb]
  by_cases hp : p.type = PieceType.pawn
  · rw [if_pos hp]
    have hgen : m ∈ getPawnMoves b f gs := by
      unfold getPossibleMoves at hm
      rw [hb] at hm
      have h1 := (List.mem_filter.mp hm).1
      rw [hp] at h1
      exact h1
    have hchar := mem_getPawnMoves hb hgen
    cases hcolor : p.color with
    | white =>
      have hd : pawnDirection p.color = -1 := by rw [pawnDirection, hcolor]; rfl
      rcases hchar with h1 | ⟨h1, _⟩ | h1 | h1 <;> subst h1 <;> dsimp only <;> rw [hd]
      · rw [if_neg (by omega),
          if_neg (by rintro ⟨-, h3⟩; simp only [Position.mk.injEq] at h3; omega)]
      · rw [if_pos (by omega)]
        conv_rhs => rw [if_pos ⟨hp, rfl⟩]
        rfl
      · rw [if_neg (by omega),
          if_neg (by rintro ⟨-, h3⟩; simp only [Position.mk.injEq] at h3; omega)]
      · rw [if_neg (by omega),
          if_neg (by rintro ⟨-, h3⟩; simp only [Position.mk.injEq] at h3; omega)]
    | black =>
      have hd : pawnDirection p.color = 1 := by
        rw [pawnDirection, hcolor]
        rfl
      rcases hchar with h1 | ⟨h1, _⟩ | h1 | h1 <;> subst h1 <;> dsimp only <;> rw [hd]
      · rw [if_neg (by omega),
          if_neg (by rintro ⟨-, h3⟩; simp only [Position.mk.injEq] at h3; omega)]
      · rw [if_pos (by omega)]
        conv_rhs => rw [if_pos ⟨hp, rfl⟩]
        rfl
      · rw [if_neg (by omega),
          if_neg (by rintro ⟨-, h3⟩; simp only [Position.mk.injEq] at h3; omega)]
      · rw [if_neg (by omega),
          if_neg (by rintro ⟨-, h3⟩; simp only [Position.mk.injEq] at h3; omega)]
  · rw [if_neg hp, if_neg (fun hc => hp hc.1)]

/-- Witness board for C4: a single white pawn on its starting square. -/
def bC4 : Board := fun q =>
  if q = ⟨6, 0⟩ then some ⟨PieceType.pawn, Color.white, false⟩ else none

/-- Witness for C4: the generated double advance sets the en-passant target
to the skipped square. -/
theorem movePiece_enPassantTarget_witness :
    bC4 ⟨6, 0⟩ = some ⟨PieceType.pawn, Color.white, false⟩ ∧
      (⟨4, 0⟩ : Position) ∈ getPossibleMoves bC4 ⟨6, 0⟩ gs0 ∧
      (movePiece bC4 ⟨6, 0⟩ ⟨4, 0⟩ gs0 none).newGameState.enPassantTarget
        = some ⟨5, 0⟩ :=
  ⟨rfl, by decide,
    (movePiece_enPassantTarget bC4 ⟨6, 0⟩ gs0 none
      ⟨PieceType.pawn, Color.white, false⟩ ⟨4, 0⟩ rfl (by decide)).trans
      (by decide)⟩

/-! ## C10: en-passant captures report no captured piece -/

theorem movePiece_capturedPiece_of_some {b : Board} {f t : Position}
    {gs : GameState} {promo : Option PieceType} {p : ChessPiece}
    (hb : b f = some p) :
    (movePiece b f t gs promo).capturedPiece = b t := by
  unfold movePiece
  simp only [cloneBoard_id, hb]

theorem movePiece_newBoard_of_some {b : Board} {f t : Position}
    {gs : GameState} {promo : Option PieceType} {p : ChessPiece}
    (hb : b f = some p) :
    (movePiece b f t gs promo).newBoard =
      boardSet (boardSet
        (if movePieceNewType p t promo = PieceType.king then
          castleRookRelocation (movePieceBoard1 b p t gs) f t
        else movePieceBoard1 b p t gs)
        t (some ⟨movePieceNewType p t promo, p.color, true⟩)) f none := by
  unfold movePiece
  simp only [cloneBoard_id, hb]

/-- C10: `capturedPiece` only ever reports a piece standing on the
destination square itself; in particular an en-passant capture (a generated
pawn move onto the current en-passant target, which is empty) reports no
captured piece even though the enemy pawn directly behind the destination
is removed from the returned board. -/
theorem movePiece_enPassant_capturedPiece :
    ∀ (board : Board) (f t : Position) (gs : GameState)
      (promo : Option PieceType),
      ((movePiece board f t gs promo).capturedPiece = none ∨
        (movePiece board f t gs promo).capturedPiece = board t) ∧
      (∀ (p q : ChessPiece) (ep : Position),
        board f = some p → p.type = PieceType.pawn →
        t ∈ getPossibleMoves board f gs →
        gs.enPassantTarget = some ep → t = ep → board t = none →
        board ⟨if p.color = Color.white then t.row + 1 else t.row - 1, t.col⟩
          = some q →
        q.type = PieceType.pawn → q.color = opponentColor p.color →
        (movePiece board f t gs promo).capturedPiece = none ∧
          (movePiece board f t gs promo).newBoard
            ⟨if p.color = Color.white then t.row + 1 else t.row - 1, t.col⟩
            = none) := by
  intro b f t gs promo
  constructor
  · cases hb : b f with
    | none =>
      left
      unfold movePiece
      simp only [cloneBoard_id, hb]
    | some p => exact Or.inr (movePiece_capturedPiece_of_some hb)
  · intro p q ep hb hp hm hep hte ht0 hbehind hqt hqc
    subst hte
    refine ⟨?_, ?_⟩
    · rw [movePiece_capturedPiece_of_some hb, ht0]
    · rw [movePiece_newBoard_of_some hb]
      have hrow : (if p.color = Color.white then t.row + 1 else t.row - 1) ≠ t.row := by
        split <;> omega
      have hbt : (⟨if p.color = Color.white then t.row + 1 else t.row - 1, t.col⟩ :
          Position) ≠ t := by
        intro hcontra
        exact hrow (congrArg Position.row hcontra)
      have hcol : (f.col - t.col).natAbs ≠ 2 := by
        have hgen : t ∈ getPawnMoves b f gs := by
          unfold getPossibleMoves at hm
          rw [hb] at hm
          have h1 := (List.mem_filter.mp hm).1
          rw [hp] at h1
          exact h1
        rcases mem_getPawnMoves hb hgen with h1 | ⟨h1, _⟩ | h1 | h1 <;>
          subst h1 <;> dsimp only <;> omega
      have hb1 : movePieceBoard1 b p t gs
          ⟨if p.color = Color.white then t.row + 1 else t.row - 1, t.col⟩ = none := by
        unfold movePieceBoard1
        rw [if_pos hp]
        unfold epCaptureRemoval
        simp [hep, boardSet]
      have hreloc : castleRookRelocation (movePieceBoard1 b p t gs) f t
          = movePieceBoard1 b p t gs := by
        unfold castleRookRelocation
        rw [if_neg hcol]
      simp only [boardSet]
      rw [if_neg hbt]
      by_cases hbf : (⟨if p.color = Color.white then t.row + 1 else t.row - 1, t.col⟩ :
          Position) = f
      · rw [if_pos hbf]
      · rw [if_neg hbf]
        by_cases hk : movePieceNewType p t promo = PieceType.king
        · rw [if_pos hk, hreloc, hb1]
        · rw [if_neg hk, hb1]

/-- Witness board for C10: a white pawn beside a black pawn that has just
double-stepped (en-passant target on row 2, column 3). -/
def bC10 : Board := fun q =>
  if q = ⟨3, 4⟩ then some ⟨PieceType.pawn, Color.white, false⟩
  else if q = ⟨3, 3⟩ then some ⟨PieceType.pawn, Color.black, false⟩ else none

/-- Game state for the C10 witness, with the en-passant window open. -/
def gsC10 : GameState := ⟨true, true, true, true, some ⟨2, 3⟩, 0, 1⟩

/-- Witness for C10: the en-passant capture reports no captured piece while
the black pawn behind the destination is removed. -/
theorem movePiece_enPassant_capturedPiece_witness :
    (movePiece bC10 ⟨3, 4⟩ ⟨2, 3⟩ gsC10 none).capturedPiece = none ∧
      (movePiece bC10 ⟨3, 4⟩ ⟨2, 3⟩ gsC10 none).newBoard ⟨3, 3⟩ = none := by
  have h := (movePiece_enPassant_capturedPiece bC10 ⟨3, 4⟩ ⟨2, 3⟩ gsC10 none).2
    ⟨PieceType.pawn, Color.white, false⟩ ⟨PieceType.pawn, Color.black, false⟩
    ⟨2, 3⟩ rfl rfl (by decide) rfl rfl rfl (by decide) rfl rfl
  exact ⟨h.1, h.2⟩

/-! ## C7: SAN disambiguation -/

/-- Leading SAN segment before the disambiguator: piece letter and, for a
pawn capture, the origin file letter. -/
def sanLead (piece : ChessPiece) (f : Position)
    (capturedPiece : Option ChessPiece) : String :=
  (if piece.type ≠ PieceType.pawn then pieceLetter piece.type else "") ++
    (if piece.type = PieceType.pawn ∧ capturedPiece.isSome then fileStr f.col
     else "")

/-- Trailing SAN segment after the disambiguator: capture mark, destination
square, promotion suffix, and check or mate suffix. -/
def sanTail (piece : ChessPiece) (t : Position)
    (capturedPiece : Option ChessPiece) (newBoard : Board) (gs : GameState)
    (promotionPiece : Option PieceType) : String :=
  (if capturedPiece.isSome then "x" else "") ++ fileStr t.col ++ rankStr t.row ++
    (match promotionPiece with
     | some pt => "=" ++ pieceLetter pt
     | none => "") ++
    (if isCheckmate newBoard (opponentColor piece.color) gs then "#"
     else if isKingInCheck newBoard (opponentColor piece.color) gs then "+"
     else "")

/-- The single disambiguator required by the spec rule: the origin file
letter if no candidate shares the origin column, else the origin rank digit
if no candidate shares the origin row, else both. -/
def sanDisambiguator (ambiguousPieces : List Position) (f : Position) : String :=
  if ∀ p ∈ ambiguousPieces, p.col ≠ f.col then fileStr f.col
  else if ∀ p ∈ ambiguousPieces, p.row ≠ f.row then rankStr f.row
  else fileStr f.col ++ rankStr f.row

/-- C7: for every non-castling move whose set of same-kind same-color other
pieces that can legally reach the same destination is non-empty, the
generated SAN string decomposes as the lead segment, then exactly one
disambiguator chosen by the column-then-row sharing rule, then the trailing
segment. -/
theorem generateSAN_disambiguation :
    ∀ (board : Board) (piece : ChessPiece) (f t : Position)
      (capturedPiece : Option ChessPiece) (newBoard : Board) (gs : GameState)
      (promotionPiece : Option PieceType),
      ¬(piece.type = PieceType.king ∧ (f.col - t.col).natAbs = 2) →
      findAmbiguousPieces board piece f t gs ≠ [] →
      generateSAN board piece f t capturedPiece newBoard gs promotionPiece
        = sanLead piece f capturedPiece ++
          sanDisambiguator (findAmbiguousPieces board piece f t gs) f ++
          sanTail piece t capturedPiece newBoard gs promotionPiece := by
  intro b piece f t cap nb gs promo hnc hne
  unfold generateSAN sanLead sanTail sanDisambiguator
  rw [if_neg hnc]
  dsimp only
  rw [if_pos (List.length_pos.mpr hne)]
  simp only [List.all_eq_true, decide_eq_true_eq]
  split_ifs <;>
    simp [String.append_assoc, String.append_empty, String.empty_append]

/-- Witness board for C7: two white knights, on row 0 column 1 and row 4
column 1, both able to reach row 2 column 2. -/
def bC7 : Board := fun q =>
  if q = ⟨0, 1⟩ then some ⟨PieceType.knight, Color.white, false⟩
  else if q = ⟨4, 1⟩ then some ⟨PieceType.knight, Color.white, false⟩ else none

/-- Witness for C7: the knight move has one same-column candidate, so the
decomposition with the chosen disambiguator applies. -/
theorem generateSAN_disambiguation_witness :
    findAmbiguousPieces bC7 ⟨PieceType.knight, Color.white, false⟩
      ⟨0, 1⟩ ⟨2, 2⟩ gs0 ≠ [] ∧
    generateSAN bC7 ⟨PieceType.knight, Color.white, false⟩ ⟨0, 1⟩ ⟨2, 2⟩
        none bC7 gs0 none
      = sanLead ⟨PieceType.knight, Color.white, false⟩ ⟨0, 1⟩ none ++
        sanDisambiguator
          (findAmbiguousPieces bC7 ⟨PieceType.knight, Color.white, false⟩
            ⟨0, 1⟩ ⟨2, 2⟩ gs0) ⟨0, 1⟩ ++
        sanTail ⟨PieceType.knight, Color.white, false⟩ ⟨2, 2⟩ none bC7 gs0 none :=
  ⟨by decide,
    generateSAN_disambiguation bC7 ⟨PieceType.knight, Color.white, false⟩
      ⟨0, 1⟩ ⟨2, 2⟩ none bC7 gs0 none (by decide) (by decide)⟩

/-- Witness for C5: the four monotonicity implications applied at a
concrete no-op execution whose resulting flags are all true. -/
theorem movePiece_castleRights_monotone_witness :
    gs0.whiteCanCastleKingside = true ∧ gs0.whiteCanCastleQueenside = true ∧
      gs0.blackCanCastleKingside = true ∧ gs0.blackCanCastleQueenside = true :=
  ⟨(movePiece_castleRights_monotone emptyBoard ⟨0, 0⟩ ⟨1, 1⟩ gs0 none).1 (by decide),
   (movePiece_castleRights_monotone emptyBoard ⟨0, 0⟩ ⟨1, 1⟩ gs0 none).2.1 (by decide),
   (movePiece_castleRights_monotone emptyBoard ⟨0, 0⟩ ⟨1, 1⟩ gs0 none).2.2.1 (by decide),
   (movePiece_castleRights_monotone emptyBoard ⟨0, 0⟩ ⟨1, 1⟩ gs0 none).2.2.2 (by decide)⟩

end Chess
